import Mathlib

/-!
Verification of the dataset-downloader repository: a shallow embedding of
its upload, pagination and orchestration code, with theorems checking the
natural-language specification against it.

Conventions of the embedding:
* Remote calls are abstracted by a schedule function telling, for each
  attempt (or each request), what the remote side does; the code under
  verification is translated statement by statement around that schedule.
* Blocking sleeps are recorded as a list of slept durations (in seconds).
* An exception that propagates out of a modelled function is an explicit
  component of its result.
-/

namespace GcsUploader

/--
Embedding of `_upload_one` from `src/gcs/gcs_uploader.py` (the copies in
`src/worker/gcs_uploader.py` and `src/worker/hf_downloader.py` have the same
retry loop).  `ok a` tells whether the blob upload attempt number `a`
(0-based) succeeds; the Python loop is
`for attempt in range(max_retries): try: upload; return / except: if
attempt < max_retries - 1: time.sleep(2 ** attempt) else: raise`.
The result is `(raised, attempts, sleeps)`: whether the last exception
propagated, how many upload attempts were made, and the slept durations.
-/
def uploadGo (ok : Nat → Bool) (maxRetries : Nat) (attempt : Nat) :
    Bool × Nat × List Nat :=
  if attempt < maxRetries then
    if ok attempt then (false, attempt + 1, [])
    else if attempt < maxRetries - 1 then
      let r := uploadGo ok maxRetries (attempt + 1)
      (r.1, r.2.1, 2 ^ attempt :: r.2.2)
    else (true, attempt + 1, [])
  else (false, attempt, [])
termination_by maxRetries - attempt

/-- Entry point of the retry loop: `_upload_one` starts at attempt 0;
`max_retries` defaults to 3 in the source. -/
def upload_one (ok : Nat → Bool) (maxRetries : Nat := 3) :
    Bool × Nat × List Nat :=
  uploadGo ok maxRetries 0

end GcsUploader

namespace PathModel

/-- Does the string begin with the character `/`?  (Python
`s.startswith('/')` for the strings fed to `os.path.join`.) -/
def headIsSlash (s : String) : Bool :=
  match s.data with
  | [] => false
  | c :: _ => c == '/'

/-- Does the string end with the character `/`? -/
def endsWithSlash (s : String) : Bool := s.data.getLast? == some '/'

/-- Embedding of POSIX `os.path.join` for two components: an absolute
second component replaces the first; otherwise the parts are glued with a
single `/` unless the first part is empty or already ends in `/`. -/
def pjoin (a b : String) : String :=
  if headIsSlash b then b
  else if a = "" then b
  else if endsWithSlash a then a ++ b
  else a ++ "/" ++ b

/-- Embedding of Python `s.lstrip('/')`: drop every leading `/`. -/
def lstripSlash (s : String) : String := ⟨s.data.dropWhile (fun c => c == '/')⟩

/-- Embedding of Python `s.startswith(p)` (character-list based so that
concrete runs reduce). -/
def strStartsWith (s p : String) : Bool := p.data.isPrefixOf s.data

/-- Embedding of Python `s.endswith(p)`. -/
def strEndsWith (s p : String) : Bool := p.data.isSuffixOf s.data

/-- Embedding of Python `s.lower()`. -/
def strToLower (s : String) : String := ⟨s.data.map Char.toLower⟩

/-- Embedding of Python `s.split('/')`: split at every `/`, keeping empty
parts, never dropping the (possibly empty) final part. -/
def splitSlashAux : List Char → List Char → List (List Char)
  | [], cur => [cur.reverse]
  | c :: cs, cur =>
      if c = '/' then cur.reverse :: splitSlashAux cs []
      else splitSlashAux cs (c :: cur)

/-- Embedding of Python `s.split('/')` on strings. -/
def splitSlash (s : String) : List String :=
  (splitSlashAux s.data []).map (fun l => ⟨l⟩)

/-- Embedding of Python `not s.strip()`: the string has no
non-whitespace character. -/
def pyBlank (s : String) : Bool := s.data.all Char.isWhitespace

/-- A staged directory: named subdirectories and plain file names.  This is
the filesystem tree that `os.walk(source)` traverses. -/
inductive FsDir where
  | mk (dirs : List (String × FsDir)) (files : List String)

/-- The directory-pruning predicate of `upload_files` /
`download_dataset`: the name starts with a dot, its lowercasing starts
with tmp or temp, or it equals the Python cache directory name
pycache. -/
def pruneDir (d : String) : Bool :=
  strStartsWith d "." || strStartsWith (strToLower d) "tmp"
    || strStartsWith (strToLower d) "temp" || d == "__pycache__"

mutual

/-- Walk the (unpruned) subdirectories of one directory level in order,
collecting relative file paths. -/
def walkDirs (po : Bool) (pre : String) : List (String × FsDir) → List String
  | [] => []
  | (d, c) :: ts =>
      (if pruneDir d then [] else walkDir po (pjoin pre d) c) ++ walkDirs po pre ts

/-- Embedding of the `os.walk` + filter loop of `upload_files`
(`src/gcs/gcs_uploader.py`) and of step 2 of `download_dataset`
(`src/worker/hf_downloader.py`): top-down walk, files of a directory
first, pruned directories skipped, and with `po` (parquet_only) set files
not ending in `.parquet` skipped.  `pre` is the path of this directory
relative to the walk root; the returned strings are the
`os.path.relpath(local_path, source)` values of the kept files. -/
def walkDir (po : Bool) (pre : String) : FsDir → List String
  | .mk dirs files =>
      files.filterMap (fun f =>
        if po && !(strEndsWith f ".parquet") then none else some (pjoin pre f))
      ++ walkDirs po pre dirs

end

mutual

/-- Well-formedness of a directory listing: no name begins with `/`. -/
def namesOkDirs : List (String × FsDir) → Bool
  | [] => true
  | (d, c) :: ts => (!headIsSlash d && namesOk c) && namesOkDirs ts

/-- Well-formedness of a staged tree: no file or directory name begins
with `/` (true of every real directory entry, where names never contain a
separator at all). -/
def namesOk : FsDir → Bool
  | .mk dirs files => files.all (fun f => !headIsSlash f) && namesOkDirs dirs

end

end PathModel

namespace GcsUploader

open PathModel

/-- The `to_upload` list built by `upload_files`: for every file of the
walk, the pair `(local_path, gcs_path)` with
`local_path = os.path.join(root, fname)` (equivalently the walk root
joined with the relative path) and
`gcs_path = os.path.join(dest_prefix, repo_id, rel_path).lstrip('/')`. -/
def to_upload (po : Bool) (source dest_pfx repo_id : String)
    (root : FsDir) : List (String × String) :=
  (walkDir po "" root).map (fun rel =>
    (pjoin source rel, lstripSlash (pjoin (pjoin dest_pfx repo_id) rel)))

/--
Embedding of `upload_files` (`src/gcs/gcs_uploader.py`): walk the tree,
submit one `_upload_one` per entry to the pool, then collect every future
inside `try: f.result() except: logging.error(...)` — so a per-file
exception is logged and never propagates — and fall off the end of the
function, which in Python returns `None`.  `ok i a` tells whether upload
attempt `a` of entry number `i` succeeds.  The result is
`Except.ok (perFileSuccess, returnValue)`; the error case of the `Except`
would be an exception escaping the engine call itself, which the collection
loop rules out.
-/
def upload_files (ok : Nat → Nat → Bool) (po : Bool)
    (source dest_pfx repo_id : String) (root : FsDir) :
    Except String (List Bool × Option String) :=
  let entries := to_upload po source dest_pfx repo_id root
  let results := (List.range entries.length).map
    (fun i => !(upload_one (ok i)).1)
  Except.ok (results, none)

end GcsUploader

namespace KaggleList

/-- Per-page retry ceiling of `get_all_dataset_files`
(`src/worker/worker_util/kaggle.py`). -/
def MAX_RETRIES : Nat := 5

/-- Backoff factor of the same module. -/
def BACKOFF_FACTOR : Nat := 1

/-- What the Kaggle listing endpoint does on one request: an HTTP error
status (429 = rate limited), a connection error, a timeout, another
request exception, a JSON decoding failure, or a page of file names plus
an optional `nextPageToken`. -/
inductive Resp where
  | httpError (code : Nat)
  | connError
  | timeout
  | reqError
  | jsonError
  | success (files : List String) (next : Option String)
deriving DecidableEq

/-- Outcome of the inner per-page retry loop of `get_all_dataset_files`:
either the page was fetched (`got` carries its files and next token), or
the loop returned the partial accumulated list (429 ceiling reached), or
it returned `None` (other HTTP error, connection error, timeout, request
exception, JSON error).  Each constructor carries the number of requests
the page consumed and the sleeps performed. -/
inductive PageStep where
  | got (files : List String) (next : Option String) (reqs : Nat) (sleeps : List Nat)
  | partialReturn (reqs : Nat) (sleeps : List Nat)
  | hardFail (reqs : Nat) (sleeps : List Nat)
deriving DecidableEq

/--
Embedding of the inner `while retries < MAX_RETRIES` loop of
`get_all_dataset_files`, entered with `retries < MAX_RETRIES` (the outer
loop resets `retries = 0` before each page).  On a 429 the code first
increments `retries`; if the ceiling is reached it returns the partial
list, otherwise it sleeps `BACKOFF_FACTOR * 2 ** retries` seconds (with
the already-incremented counter) and retries.  Any other failure returns
`None` at once; a success records the files and the next token and breaks.
`server` maps the global request number to the remote behaviour; `reqIdx`
is the number of requests already issued.
-/
def fetchPage (server : Nat → Resp) (reqIdx retries : Nat) : PageStep :=
  match server reqIdx with
  | .httpError code =>
      if code == 429 then
        let r := retries + 1
        if MAX_RETRIES ≤ r then .partialReturn 1 []
        else
          match fetchPage server (reqIdx + 1) r with
          | .got fs t n sl => .got fs t (n + 1) (BACKOFF_FACTOR * 2 ^ r :: sl)
          | .partialReturn n sl => .partialReturn (n + 1) (BACKOFF_FACTOR * 2 ^ r :: sl)
          | .hardFail n sl => .hardFail (n + 1) (BACKOFF_FACTOR * 2 ^ r :: sl)
      else .hardFail 1 []
  | .connError => .hardFail 1 []
  | .timeout => .hardFail 1 []
  | .reqError => .hardFail 1 []
  | .jsonError => .hardFail 1 []
  | .success fs t => .got fs t 1 []
termination_by MAX_RETRIES - retries
decreasing_by simp_all [MAX_RETRIES]; omega

/-- The outer-loop termination test of `get_all_dataset_files`:
`if not page_token or len(page_token) == 0: break`. -/
def tokEnds : Option String → Bool
  | none => true
  | some s => s.isEmpty

/-- Observable outcome of a whole listing run: the returned value (`none`
models Python `None`, `some l` the returned list), the total number of
HTTP requests issued, and every sleep performed, in order. -/
structure PagerOut where
  result : Option (List String)
  requests : Nat
  sleeps : List Nat
deriving DecidableEq

/-- The outer `while True` pagination loop of `get_all_dataset_files`:
fetch a page with a fresh retry counter, handle the three inner-loop
outcomes, and stop when the next token is missing or empty.  `fuel`
bounds the number of pages (the Python loop has no bound; every theorem
supplies enough fuel, and `none` marks exhaustion). -/
def pagerLoop (server : Nat → Resp) :
    Nat → Nat → List String → List Nat → Option PagerOut
  | 0, _, _, _ => none
  | fuel + 1, reqIdx, acc, slept =>
    match fetchPage server reqIdx 0 with
    | .hardFail n sl => some ⟨none, reqIdx + n, slept ++ sl⟩
    | .partialReturn n sl => some ⟨some acc, reqIdx + n, slept ++ sl⟩
    | .got fs t n sl =>
        if tokEnds t then some ⟨some (acc ++ fs), reqIdx + n, slept ++ sl⟩
        else pagerLoop server fuel (reqIdx + n) (acc ++ fs) (slept ++ sl)

/-- Embedding of `get_all_dataset_files`: missing credentials return
`None` before any request; otherwise the pagination loop runs from an
empty accumulator. -/
def get_all_dataset_files (kaggle_username kaggle_key : String)
    (server : Nat → Resp) (fuel : Nat) : Option PagerOut :=
  if kaggle_username.isEmpty || kaggle_key.isEmpty then some ⟨none, 0, []⟩
  else pagerLoop server fuel 0 [] []

/-- A scripted page of the fake listing server: how many 429 responses
precede the successful response, the files of the page, and the
`nextPageToken` the success carries. -/
structure Page where
  k429 : Nat
  files : List String
  tok : Option String
deriving DecidableEq

/-- A fake listing server built from scripted pages: requests are
numbered globally, each page consumes `k429 + 1` of them, and once the
script is exhausted the server behaves as `after`. -/
def mkServer : List Page → (Nat → Resp) → Nat → Resp
  | [], after, n => after n
  | p :: rest, after, n =>
      if n < p.k429 then .httpError 429
      else if n = p.k429 then .success p.files p.tok
      else mkServer rest after (n - (p.k429 + 1))

/-- The sleeps a page with `k` rate-limit responses causes: the counter is
incremented before the sleep, so the durations are
`BACKOFF_FACTOR * 2 ^ r` for `r = 1, …, k`. -/
def pageSleeps (k : Nat) : List Nat :=
  (List.range' 1 k).map (fun r => BACKOFF_FACTOR * 2 ^ r)

/-- Total requests a scripted run consumes: `k429 + 1` per page. -/
def reqsOf (pages : List Page) : Nat := (pages.map (fun p => p.k429 + 1)).sum

/-- Concatenation of all scripted pages, in order. -/
def filesOf (pages : List Page) : List String := (pages.map Page.files).flatten

/-- All sleeps of a scripted run, page by page. -/
def sleepsOf (pages : List Page) : List Nat :=
  (pages.map (fun p => pageSleeps p.k429)).flatten

/-- The sleeps of a page whose 429 responses exhaust the ceiling: after
the fifth 429 the code returns without sleeping, so only four sleeps
happen. -/
def stallSleeps : List Nat :=
  (List.range' 1 (MAX_RETRIES - 1)).map (fun r => BACKOFF_FACTOR * 2 ^ r)

end KaggleList

namespace KaggleDl

/-- Retry ceiling of `_download_file_worker`
(`src/worker/kaggle_downloader.py`). -/
def MAX_RETRIES : Nat := 3

/-- Base backoff of the same module. -/
def BASE_BACKOFF_SECONDS : Nat := 2

/-- What one `dataset_download_file` call does: succeed, raise an
exception whose text contains `429`, or raise any other exception. -/
inductive DlOutcome where
  | ok
  | err429
  | errOther

/--
Embedding of the `for attempt in range(MAX_RETRIES)` loop of
`_download_file_worker`: success returns `Status(ok=True)`; an exception
containing `429` sleeps `BASE_BACKOFF_SECONDS * 2 ** attempt` and retries
while `attempt < MAX_RETRIES - 1`, else returns a failure `Status`; any
other exception returns a failure `Status` immediately.  The result is
`(statusOk, attempts, sleeps)`; the worker itself never raises.
-/
def workerGo (dl : Nat → DlOutcome) (attempt : Nat) : Bool × Nat × List Nat :=
  match dl attempt with
  | .ok => (true, attempt + 1, [])
  | .err429 =>
      if h : attempt < MAX_RETRIES - 1 then
        let r := workerGo dl (attempt + 1)
        (r.1, r.2.1, BASE_BACKOFF_SECONDS * 2 ^ attempt :: r.2.2)
      else (false, attempt + 1, [])
  | .errOther => (false, attempt + 1, [])
termination_by MAX_RETRIES - attempt
decreasing_by simp_all [MAX_RETRIES]; omega

/-- Entry point of the worker loop, at attempt 0. -/
def download_file_worker (dl : Nat → DlOutcome) : Bool × Nat × List Nat :=
  workerGo dl 0

end KaggleDl

namespace KaggleOrch

/-- Observable outcome of `download_kaggle_dataset_concurrently`: the
exception that propagated to the caller (if any), the file names for
which a download was attempted, the `Status.ok` of each download, and whether
the upload phase was invoked. -/
structure KaggleRun where
  raised : Option String
  downloads : List String
  downloadResults : List Bool
  uploadCalled : Bool
deriving DecidableEq

/--
Embedding of `download_kaggle_dataset_concurrently`
(`src/worker/kaggle_downloader.py`).  `apiReady` models the module-level
`_kaggle_api` being initialized; `listing` is the value returned by
`get_all_dataset_files` (`none` models Python `None`); `dl i a` is the
outcome of attempt `a` of file number `i`; `uploadRaises` tells whether
`upload_files` raises.  The code raises for a missing API or a malformed
`repo_id`; when `not all_files` (a `None` or an empty listing) it logs a
warning and returns normally, attempting no download and no upload;
otherwise it downloads every listed file through
`_download_file_worker` — whose failure `Status` is noted and ignored —
and then calls `upload_files`, re-raising its exception if it raises.
-/
def download_kaggle_dataset_concurrently (apiReady : Bool) (repo_id : String)
    (listing : Option (List String)) (dl : Nat → Nat → KaggleDl.DlOutcome)
    (uploadRaises : Bool) : KaggleRun :=
  if !apiReady then
    ⟨some "Kaggle credentials not set or Kaggle API not initialized.", [], [], false⟩
  else if (PathModel.splitSlash repo_id).length ≠ 2 then
    ⟨some "Invalid repo_id format", [], [], false⟩
  else
    match listing with
    | none => ⟨none, [], [], false⟩
    | some [] => ⟨none, [], [], false⟩
    | some files =>
        let results := (List.range files.length).map
          (fun i => (KaggleDl.download_file_worker (dl i)).1)
        if uploadRaises then ⟨some "GCS upload exception", files, results, true⟩
        else ⟨none, files, results, true⟩

/-- The return value of `upload_files`: the function body ends with a log
statement and has no `return` statement, so in Python the call evaluates
to `None`. -/
def upload_files_return : Option String := none

/-- Observable tail of `download_kaggle_dataset_with_cli`: the exception
that propagated (if any) and, when the publish call is reached, the
`(dataset, destination)` arguments passed to `Publisher.publish`. -/
structure CliRun where
  raised : Option String
  publishArgs : Option (String × Option String)
deriving DecidableEq

/--
Embedding of `download_kaggle_dataset_with_cli`
(`src/worker/kaggle_downloader.py`): ensure credentials (raising on
failure), run the CLI download, then
`gcs_dest = upload_files(...)` — binding the `None` that `upload_files`
returns — and finally
`publisher.publish(dataset=repo_id, destination=gcs_dest)`.
-/
def download_kaggle_dataset_with_cli (repo_id : String)
    (credsOk : Bool) (uploadRaises : Bool) : CliRun :=
  if !credsOk then ⟨some "Insufficient Kaggle credentials", none⟩
  else if uploadRaises then ⟨some "GCS upload exception", none⟩
  else ⟨none, some (repo_id, upload_files_return)⟩

end KaggleOrch

namespace HfOrch

open PathModel

/-- Observable outcome of `download_dataset`
(`src/worker/hf_downloader.py`): the destination directory, the exception
that propagated (if any), the `(local_path, gcs_path)` pairs submitted
for upload, and every `(dataset, destination)` completion notification
fired. -/
structure HfRun where
  dest : String
  raised : Option String
  uploads : List (String × String)
  publishes : List (String × String)
deriving DecidableEq

/--
Embedding of `download_dataset` (`src/worker/hf_downloader.py`): build
`dest` from the mount path and the optional suffix, fetch the dataset
(propagating a fetch failure without uploading), walk `dest` with the
pruning and parquet filters computing
`gcs_path = os.path.join(GCS_PREFIX, repo_id, rel_path).lstrip('/')`, and
submit every pair for upload (per-file errors are caught and logged by the
collection loop).  The function contains no publish call, so the list of
completion notifications it fires is `[]`.
-/
def download_dataset (mount gcs_pfx : String) (repo_id : String)
    (dest_suffix : String) (parquet_only : Bool) (fetchOk : Bool)
    (staged : FsDir) : HfRun :=
  let dest := if dest_suffix ≠ "" then pjoin mount dest_suffix else mount
  if !fetchOk then ⟨dest, some "Failed to download dataset from Hugging Face", [], []⟩
  else
    let ups := (walkDir parquet_only "" staged).map (fun rel =>
      (pjoin dest rel, lstripSlash (pjoin (pjoin gcs_pfx repo_id) rel)))
    ⟨dest, none, ups, []⟩

end HfOrch

namespace Frontend

/-- A character allowed by the dataset pattern `[a-zA-Z0-9_-]`. -/
def datasetChar (c : Char) : Bool := c.isAlphanum || c == '_' || c == '-'

/-- Embedding of `is_valid_dataset` (`src/frontend/main.py`):
`re.fullmatch(r"[a-zA-Z0-9_-]+/[a-zA-Z0-9_-]+", dataset)` — exactly one
`/`, both segments non-empty and made of allowed characters. -/
def is_valid_dataset (dataset : String) : Bool :=
  match PathModel.splitSlash dataset with
  | [a, b] => !a.isEmpty && !b.isEmpty && a.data.all datasetChar && b.data.all datasetChar
  | _ => false

/-- Embedding of `is_valid_suffix_format` (`src/frontend/main.py`). -/
def is_valid_suffix_format (suffix : String) : Bool :=
  if PathModel.strStartsWith suffix "/" || PathModel.strEndsWith suffix "/" then false
  else (PathModel.splitSlash suffix).all
    (fun part => !part.isEmpty && part ≠ "." && part ≠ "..")

/-- The JSON body of a `POST /enqueue` request, as read by `enqueue`
through `data.get` for the `dataset`, `source` and `dest_suffix` fields
(the latter defaulting to the empty string).  A field that is absent
(or, for `dataset`, not a string) is `none`. -/
structure EnqueueBody where
  dataset : Option String
  source : Option String
  dest_suffix : Option String

/-- What the `enqueue` handler does with a request: reject it with a 400
response, or call `trigger_download_job` with these arguments. -/
inductive EnqueueResult where
  | badRequest (msg : String)
  | triggered (dataset source dest_suffix : String)
deriving DecidableEq

/--
Embedding of the `enqueue` handler (`src/frontend/main.py`): validate the
dataset, the source and (when non-empty) the suffix, defaulting an empty
or absent `dest_suffix` to the dataset id just before triggering the job.
-/
def enqueue (body : EnqueueBody) : EnqueueResult :=
  let ds := body.dest_suffix.getD ""
  match body.dataset with
  | none => .badRequest "dataset must be a non-empty string"
  | some dataset =>
    if PathModel.pyBlank dataset then .badRequest "dataset must be a non-empty string"
    else if !is_valid_dataset dataset then .badRequest "Non valid dataset field"
    else
      match body.source with
      | none => .badRequest "Non valid source field"
      | some source =>
        if !(source == "kaggle" || source == "huggingface") then
          .badRequest "Non valid source field"
        else if !ds.isEmpty && !is_valid_suffix_format ds then
          .badRequest "Invalid destination suffix"
        else
          let ds := if ds.isEmpty then dataset else ds
          .triggered dataset source ds

/-- The worker-side staging destination: every downloader computes
`dest = os.path.join(FILERESTORE_MOUNT_PATH, dest_suffix) if dest_suffix
else FILERESTORE_MOUNT_PATH`. -/
def destPath (mount dest_suffix : String) : String :=
  if dest_suffix ≠ "" then PathModel.pjoin mount dest_suffix else mount

end Frontend

/-!
Theorems.  Each claim `Cn` of the specification review is settled by one
theorem below (with a witness or counterexample where required); the
lemmas in between are shared supporting facts about the definitions
above.
-/

namespace GcsUploader

/-- When the first `N` attempts fail and attempt `N` succeeds, and the
retry budget is larger than `N`, the loop returns successfully after
`N + 1` attempts, having slept `2 ^ a` seconds after each failed attempt
`a`. -/
lemma uploadGo_succeeds (ok : Nat → Bool) (maxRetries N : Nat)
    (hNm : N < maxRetries) (hfail : ∀ a, a < N → ok a = false)
    (hsucc : ok N = true) :
    ∀ k a, N - a = k → a ≤ N →
      uploadGo ok maxRetries a
        = (false, N + 1, (List.range' a (N - a)).map (fun i => 2 ^ i)) := by
  intro k
  induction k with
  | zero =>
    intro a hk ha
    have haN : a = N := by omega
    subst haN
    rw [uploadGo]
    simp [hNm, hsucc]
  | succ k ih =>
    intro a hk ha
    have haN : a < N := by omega
    have h1 : a < maxRetries := by omega
    have h2 : ok a = false := hfail a haN
    have h3 : a < maxRetries - 1 := by omega
    rw [uploadGo]
    simp only [h1, if_true, h2, if_false, h3, Bool.false_eq_true]
    rw [ih (a + 1) (by omega) (by omega)]
    have hr : N - a = (N - (a + 1)) + 1 := by omega
    rw [hr, List.range'_succ]
    simp

/-- When every attempt in the budget fails, the loop makes exactly
`maxRetries` attempts, sleeping `2 ^ a` after each failed attempt except
the last, whose exception propagates. -/
lemma uploadGo_exhausts (ok : Nat → Bool) (maxRetries : Nat)
    (hpos : 1 ≤ maxRetries) (hfail : ∀ a, a < maxRetries → ok a = false) :
    ∀ k a, maxRetries - 1 - a = k → a ≤ maxRetries - 1 →
      uploadGo ok maxRetries a
        = (true, maxRetries,
           (List.range' a (maxRetries - 1 - a)).map (fun i => 2 ^ i)) := by
  intro k
  induction k with
  | zero =>
    intro a hk ha
    have h1 : a < maxRetries := by omega
    have h2 : ok a = false := hfail a h1
    have h3 : ¬ a < maxRetries - 1 := by omega
    rw [uploadGo]
    simp only [h1, if_true, h2, Bool.false_eq_true, if_false, h3]
    have : a + 1 = maxRetries := by omega
    simp [this, hk]
  | succ k ih =>
    intro a hk ha
    have h1 : a < maxRetries := by omega
    have h2 : ok a = false := hfail a h1
    have h3 : a < maxRetries - 1 := by omega
    rw [uploadGo]
    simp only [h1, if_true, h2, if_false, h3, Bool.false_eq_true]
    rw [ih (a + 1) (by omega) (by omega)]
    have hr : maxRetries - 1 - a = (maxRetries - 1 - (a + 1)) + 1 := by omega
    rw [hr, List.range'_succ]
    simp

/-- An upload whose first attempt succeeds makes exactly one attempt and
sleeps never. -/
lemma upload_one_first_ok (ok : Nat → Bool) (maxRetries : Nat)
    (hpos : 1 ≤ maxRetries) (h0 : ok 0 = true) :
    upload_one ok maxRetries = (false, 1, []) := by
  rw [upload_one, uploadGo]
  simp [h0, hpos]
  omega

end GcsUploader

/--
C1: for `_upload_one` with `maxRetries ≥ 1` against an upload that fails
its first `N` attempts and then succeeds: if `maxRetries > N` the call
succeeds after exactly `N + 1` attempts; if `maxRetries ≤ N` it fails
after exactly `maxRetries` attempts with the last error propagating; and
between consecutive attempts it sleeps `2 ^ attempt` seconds with
`attempt` starting at 0.
-/
theorem c1_upload_one_retries (N maxRetries : Nat) (hpos : 1 ≤ maxRetries) :
    (N < maxRetries →
      GcsUploader.upload_one (fun i => decide (N ≤ i)) maxRetries
        = (false, N + 1, (List.range N).map (fun i => 2 ^ i)))
    ∧ (maxRetries ≤ N →
      GcsUploader.upload_one (fun i => decide (N ≤ i)) maxRetries
        = (true, maxRetries,
           (List.range (maxRetries - 1)).map (fun i => 2 ^ i))) := by
  constructor
  · intro h
    rw [GcsUploader.upload_one,
      GcsUploader.uploadGo_succeeds (fun i => decide (N ≤ i)) maxRetries N h
        (fun a ha => by simp; omega) (by simp) (N - 0) 0 rfl (by omega)]
    rw [List.range_eq_range']
    simp
  · intro h
    rw [GcsUploader.upload_one,
      GcsUploader.uploadGo_exhausts (fun i => decide (N ≤ i)) maxRetries hpos
        (fun a ha => by simp; omega) (maxRetries - 1 - 0) 0 rfl (by omega)]
    rw [List.range_eq_range']
    simp

/-- Witness for C1: an upload failing its first 2 attempts succeeds at the
third with `maxRetries = 3` (sleeps 1 then 2 seconds), and fails after
exactly 2 attempts with `maxRetries = 2`. -/
theorem c1_upload_one_retries_witness :
    GcsUploader.upload_one (fun i => decide (2 ≤ i)) 3 = (false, 3, [1, 2])
    ∧ GcsUploader.upload_one (fun i => decide (2 ≤ i)) 2 = (true, 2, [1]) := by
  constructor
  · exact ((c1_upload_one_retries 2 3 (by decide)).1 (by decide)).trans (by rfl)
  · exact ((c1_upload_one_retries 2 2 (by decide)).2 (by decide)).trans (by rfl)

namespace KaggleList

/-- A page answered with `k` rate-limit responses and then a success is
fetched with exactly `k + 1` requests, sleeping
`BACKOFF_FACTOR * 2 ^ r` for `r = retries + 1, …, retries + k` (the
counter is incremented before each sleep). -/
lemma fetchPage_success (server : Nat → Resp) (fs : List String)
    (t : Option String) :
    ∀ k reqIdx retries, retries + k < MAX_RETRIES →
      (∀ i, i < k → server (reqIdx + i) = .httpError 429) →
      server (reqIdx + k) = .success fs t →
      fetchPage server reqIdx retries
        = .got fs t (k + 1)
            ((List.range' (retries + 1) k).map (fun r => BACKOFF_FACTOR * 2 ^ r)) := by
  intro k
  induction k with
  | zero =>
    intro reqIdx retries hlt h429 hsucc
    have hs : server reqIdx = .success fs t := by simpa using hsucc
    rw [fetchPage, hs]
    rfl
  | succ k ih =>
    intro reqIdx retries hlt h429 hsucc
    have h0 : server reqIdx = .httpError 429 := by
      simpa using h429 0 (Nat.succ_pos k)
    have hnot : ¬ MAX_RETRIES ≤ retries + 1 := by omega
    have hrec := ih (reqIdx + 1) (retries + 1) (by omega)
      (fun i hi => by
        have := h429 (i + 1) (by omega)
        simpa [Nat.add_assoc, Nat.add_comm 1 i] using this)
      (by
        have := hsucc
        rw [show reqIdx + (k + 1) = reqIdx + 1 + k by omega] at this
        exact this)
    rw [fetchPage, h0]
    simp only [hnot, if_false, hrec, beq_self_eq_true, if_true, List.range'_succ,
      List.map_cons]

/-- A page answered with rate-limit responses through the whole remaining
budget returns the accumulated partial list: `d = MAX_RETRIES - retries`
more requests are made, with a sleep after each except the last. -/
lemma fetchPage_stall (server : Nat → Resp) :
    ∀ d reqIdx retries, retries + d = MAX_RETRIES → 1 ≤ d →
      (∀ i, i < d → server (reqIdx + i) = .httpError 429) →
      fetchPage server reqIdx retries
        = .partialReturn d
            ((List.range' (retries + 1) (d - 1)).map (fun r => BACKOFF_FACTOR * 2 ^ r)) := by
  intro d
  induction d with
  | zero => intro reqIdx retries h1 h2; omega
  | succ d ih =>
    intro reqIdx retries hsum hpos h429
    have h0 : server reqIdx = .httpError 429 := by
      simpa using h429 0 (Nat.succ_pos d)
    by_cases hd : d = 0
    · subst hd
      have hceil : MAX_RETRIES ≤ retries + 1 := by omega
      rw [fetchPage, h0]
      simp [hceil]
    · have hnot : ¬ MAX_RETRIES ≤ retries + 1 := by omega
      have hrec := ih (reqIdx + 1) (retries + 1) (by omega) (by omega)
        (fun i hi => by
          have := h429 (i + 1) (by omega)
          simpa [Nat.add_assoc, Nat.add_comm 1 i] using this)
      rw [fetchPage, h0]
      simp only [hnot, if_false, hrec, beq_self_eq_true, if_true]
      have hr : d + 1 - 1 = (d - 1) + 1 := by omega
      rw [hr, List.range'_succ]
      simp

/-- A request answered with a non-429 HTTP error, a connection error, a
timeout, another request exception, or a JSON decoding failure makes the
listing return `None` at once: one request, no sleep, no retry. -/
lemma fetchPage_hardFail (server : Nat → Resp) (reqIdx retries : Nat)
    (h : (∃ c, c ≠ 429 ∧ server reqIdx = .httpError c)
       ∨ server reqIdx = .connError ∨ server reqIdx = .timeout
       ∨ server reqIdx = .reqError ∨ server reqIdx = .jsonError) :
    fetchPage server reqIdx retries = .hardFail 1 [] := by
  rcases h with ⟨c, hc, hs⟩ | hs | hs | hs | hs <;> rw [fetchPage, hs]
  · have : (c == 429) = false := by simpa using hc
    simp [this]

/-- Requests past a scripted prefix are served by the continuation. -/
lemma mkServer_shift (after : Nat → Resp) :
    ∀ pages m, mkServer pages after (reqsOf pages + m) = after m := by
  intro pages
  induction pages with
  | nil => intro m; simp [mkServer, reqsOf]
  | cons p rest ih =>
    intro m
    have h1 : ¬ reqsOf (p :: rest) + m < p.k429 := by
      simp [reqsOf]; omega
    have h2 : ¬ reqsOf (p :: rest) + m = p.k429 := by
      simp [reqsOf]; omega
    rw [mkServer]
    simp only [h1, if_false, h2]
    have h3 : reqsOf (p :: rest) + m - (p.k429 + 1) = reqsOf rest + m := by
      simp [reqsOf]; omega
    rw [h3, ih]

/-- One scripted page at the head of the script: the inner loop fetches
exactly it. -/
lemma fetchPage_mkServer (p : Page) (rest : List Page)
    (after : Nat → Resp) (server : Nat → Resp) (reqIdx : Nat)
    (hsrv : ∀ m, server (reqIdx + m) = mkServer (p :: rest) after m)
    (hk : p.k429 < MAX_RETRIES) :
    fetchPage server reqIdx 0 = .got p.files p.tok (p.k429 + 1) (pageSleeps p.k429) := by
  have h429 : ∀ i, i < p.k429 → server (reqIdx + i) = .httpError 429 := by
    intro i hi
    rw [hsrv i, mkServer]
    simp [hi]
  have hsucc : server (reqIdx + p.k429) = .success p.files p.tok := by
    rw [hsrv p.k429, mkServer]
    simp
  have := fetchPage_success server p.files p.tok p.k429 reqIdx 0 (by omega) h429 hsucc
  simpa [pageSleeps] using this

/-- Running the pagination loop over a script whose last page carries an
ending token and whose earlier pages do not: every page is fetched with
`k429 + 1` requests and the full concatenation is returned. -/
lemma pagerLoop_good (after : Nat → Resp) :
    ∀ (pages : List Page) (server : Nat → Resp) (fuel reqIdx : Nat)
      (acc : List String) (slept : List Nat),
      (∀ m, server (reqIdx + m) = mkServer pages after m) →
      (∀ p ∈ pages, p.k429 < MAX_RETRIES) →
      (∀ p ∈ pages.dropLast, tokEnds p.tok = false) →
      (∀ p, pages.getLast? = some p → tokEnds p.tok = true) →
      pages ≠ [] →
      pages.length ≤ fuel →
      pagerLoop server fuel reqIdx acc slept
        = some ⟨some (acc ++ filesOf pages), reqIdx + reqsOf pages,
                slept ++ sleepsOf pages⟩ := by
  intro pages
  induction pages with
  | nil => intro _ _ _ _ _ _ _ _ _ h _; exact absurd rfl h
  | cons p rest ih =>
    intro server fuel reqIdx acc slept hsrv hk hmid hlast hne hfuel
    obtain ⟨f, rfl⟩ : ∃ f, fuel = f + 1 := by
      cases fuel with
      | zero => simp at hfuel
      | succ f => exact ⟨f, rfl⟩
    have hfetch := fetchPage_mkServer p rest after server reqIdx hsrv
      (hk p (List.mem_cons_self p rest))
    rw [pagerLoop, hfetch]
    cases rest with
    | nil =>
      have htok : tokEnds p.tok = true := hlast p rfl
      simp [htok, filesOf, reqsOf, sleepsOf, Nat.add_assoc]
    | cons q rest2 =>
      have htok : tokEnds p.tok = false := by
        apply hmid
        rw [List.dropLast_cons₂]
        exact List.mem_cons_self p _
      simp only [htok, Bool.false_eq_true, if_false]
      rw [ih server f (reqIdx + (p.k429 + 1)) (acc ++ p.files)
        (slept ++ pageSleeps p.k429)
        (fun m => by
          have := hsrv (p.k429 + 1 + m)
          rw [show reqIdx + (p.k429 + 1 + m) = reqIdx + (p.k429 + 1) + m by omega] at this
          rw [this, mkServer]
          have h1 : ¬ p.k429 + 1 + m < p.k429 := by omega
          have h2 : ¬ p.k429 + 1 + m = p.k429 := by omega
          simp only [h1, if_false, h2]
          congr 1
          omega)
        (fun q hq => hk q (List.mem_cons_of_mem p hq))
        (fun q hq => hmid q (by rw [List.dropLast_cons₂]; exact List.mem_cons_of_mem p hq))
        (fun q hq => hlast q (by rw [List.getLast?_cons_cons]; exact hq))
        (by simp)
        (by simpa using hfuel)]
      simp [filesOf, reqsOf, sleepsOf, Nat.add_assoc]

/-- Running the pagination loop over a script of non-ending pages followed
by an endless run of 429 responses: the scripted pages accumulate, the
next page exhausts the five-attempt ceiling, and the accumulated partial
list is returned. -/
lemma pagerLoop_stall :
    ∀ (pages : List Page) (server : Nat → Resp) (fuel reqIdx : Nat)
      (acc : List String) (slept : List Nat),
      (∀ m, server (reqIdx + m) = mkServer pages (fun _ => .httpError 429) m) →
      (∀ p ∈ pages, p.k429 < MAX_RETRIES) →
      (∀ p ∈ pages, tokEnds p.tok = false) →
      pages.length + 1 ≤ fuel →
      pagerLoop server fuel reqIdx acc slept
        = some ⟨some (acc ++ filesOf pages), reqIdx + reqsOf pages + MAX_RETRIES,
                slept ++ sleepsOf pages ++ stallSleeps⟩ := by
  intro pages
  induction pages with
  | nil =>
    intro server fuel reqIdx acc slept hsrv _ _ hfuel
    obtain ⟨f, rfl⟩ : ∃ f, fuel = f + 1 := by
      cases fuel with
      | zero => simp at hfuel
      | succ f => exact ⟨f, rfl⟩
    have h429 : ∀ i, i < MAX_RETRIES → server (reqIdx + i) = .httpError 429 := by
      intro i _
      rw [hsrv i, mkServer]
    have hfetch := fetchPage_stall server MAX_RETRIES reqIdx 0 (by omega)
      (by simp [MAX_RETRIES]) h429
    rw [pagerLoop, hfetch]
    simp [filesOf, reqsOf, sleepsOf, stallSleeps]
  | cons p rest ih =>
    intro server fuel reqIdx acc slept hsrv hk htok hfuel
    obtain ⟨f, rfl⟩ : ∃ f, fuel = f + 1 := by
      cases fuel with
      | zero => simp at hfuel
      | succ f => exact ⟨f, rfl⟩
    have hfetch := fetchPage_mkServer p rest (fun _ => .httpError 429) server reqIdx hsrv
      (hk p (List.mem_cons_self p rest))
    rw [pagerLoop, hfetch]
    have htokp : tokEnds p.tok = false := htok p (List.mem_cons_self p rest)
    simp only [htokp, Bool.false_eq_true, if_false]
    rw [ih server f (reqIdx + (p.k429 + 1)) (acc ++ p.files)
      (slept ++ pageSleeps p.k429)
      (fun m => by
        have := hsrv (p.k429 + 1 + m)
        rw [show reqIdx + (p.k429 + 1 + m) = reqIdx + (p.k429 + 1) + m by omega] at this
        rw [this, mkServer]
        have h1 : ¬ p.k429 + 1 + m < p.k429 := by omega
        have h2 : ¬ p.k429 + 1 + m = p.k429 := by omega
        simp only [h1, if_false, h2]
        congr 1
        omega)
      (fun q hq => hk q (List.mem_cons_of_mem p hq))
      (fun q hq => htok q (List.mem_cons_of_mem p hq))
      (by simpa using hfuel)]
    simp [filesOf, reqsOf, sleepsOf, Nat.add_assoc]

end KaggleList

/--
C2: for every listing run of `get_all_dataset_files`: (1) if each page
succeeds after `k < 5` rate-limit responses, each page is fetched with
exactly `k + 1` requests and the call returns the full concatenation of
all pages; (2) if any request fails with a non-429 HTTP error the call
returns `None` immediately, whatever was already accumulated; (3) if a
page receives 429 responses until the five-attempt-per-page ceiling is
exhausted, the call returns the partial list accumulated so far.
-/
theorem c2_pager_outcomes
    (username key : String)
    (hu : username.isEmpty = false) (hkey : key.isEmpty = false)
    (pages : List KaggleList.Page) (after : Nat → KaggleList.Resp)
    (hpk : ∀ p ∈ pages, p.k429 < KaggleList.MAX_RETRIES)
    (hmid : ∀ p ∈ pages.dropLast, KaggleList.tokEnds p.tok = false)
    (plast : KaggleList.Page) (hl1 : pages.getLast? = some plast)
    (hl2 : KaggleList.tokEnds plast.tok = true)
    (stall : List KaggleList.Page)
    (hsk : ∀ p ∈ stall, p.k429 < KaggleList.MAX_RETRIES)
    (hstok : ∀ p ∈ stall, KaggleList.tokEnds p.tok = false)
    (server : Nat → KaggleList.Resp) (i c : Nat) (hc : c ≠ 429)
    (hsrv : server i = KaggleList.Resp.httpError c)
    (fuel : Nat) (acc : List String) (slept : List Nat) :
    KaggleList.get_all_dataset_files username key
        (KaggleList.mkServer pages after) pages.length
      = some ⟨some (KaggleList.filesOf pages), KaggleList.reqsOf pages,
              KaggleList.sleepsOf pages⟩
    ∧ KaggleList.pagerLoop server (fuel + 1) i acc slept
      = some ⟨none, i + 1, slept⟩
    ∧ KaggleList.get_all_dataset_files username key
        (KaggleList.mkServer stall (fun _ => KaggleList.Resp.httpError 429))
        (stall.length + 1)
      = some ⟨some (KaggleList.filesOf stall),
              KaggleList.reqsOf stall + KaggleList.MAX_RETRIES,
              KaggleList.sleepsOf stall ++ KaggleList.stallSleeps⟩ := by
  have hne : pages ≠ [] := by
    intro h
    subst h
    simp at hl1
  refine ⟨?_, ?_, ?_⟩
  · rw [KaggleList.get_all_dataset_files]
    simp only [hu, hkey, Bool.or_self, Bool.false_eq_true, if_false]
    rw [KaggleList.pagerLoop_good after pages _ pages.length 0 [] []
      (fun m => by simp) hpk hmid
      (fun p hp => by
        rw [hl1] at hp
        exact (Option.some.inj hp) ▸ hl2)
      hne (le_refl _)]
    simp
  · simp only [KaggleList.pagerLoop,
      KaggleList.fetchPage_hardFail server i 0 (Or.inl ⟨c, hc, hsrv⟩)]
    simp
  · rw [KaggleList.get_all_dataset_files]
    simp only [hu, hkey, Bool.or_self, Bool.false_eq_true, if_false]
    rw [KaggleList.pagerLoop_stall stall _ (stall.length + 1) 0 [] []
      (fun m => by simp) hsk hstok (le_refl _)]
    simp

/-- Witness for C2: a two-page listing (one 429 then success; then direct
success with an empty token) returns both pages after 3 requests; a 404
mid-run returns `None` dropping the accumulated page; a one-page listing
followed by endless 429s returns the partial single page after 5 more
attempts. -/
theorem c2_pager_outcomes_witness :
    KaggleList.get_all_dataset_files "u" "k"
        (KaggleList.mkServer [⟨1, ["a"], some "t"⟩, ⟨0, ["b"], none⟩]
          (fun _ => KaggleList.Resp.connError)) 2
      = some ⟨some ["a", "b"], 3, [2]⟩
    ∧ KaggleList.pagerLoop (fun _ => KaggleList.Resp.httpError 404) 1 0 ["p"] [9]
      = some ⟨none, 1, [9]⟩
    ∧ KaggleList.get_all_dataset_files "u" "k"
        (KaggleList.mkServer [⟨0, ["x"], some "t"⟩]
          (fun _ => KaggleList.Resp.httpError 429)) 2
      = some ⟨some ["x"], 6, [2, 4, 8, 16]⟩ := by
  obtain ⟨h1, h2, h3⟩ := c2_pager_outcomes "u" "k" rfl rfl
    [⟨1, ["a"], some "t"⟩, ⟨0, ["b"], none⟩] (fun _ => KaggleList.Resp.connError)
    (by decide) (by decide) ⟨0, ["b"], none⟩ rfl rfl
    [⟨0, ["x"], some "t"⟩] (by decide) (by decide)
    (fun _ => KaggleList.Resp.httpError 404) 0 404 (by decide) rfl
    0 ["p"] [9]
  exact ⟨h1.trans (by rfl), h2.trans (by rfl), h3.trans (by rfl)⟩

/--
C7 counterexample: the claim says the pager sleeps
`backoffFactor * 2 ^ retryCount` with the pre-increment counter, giving a
first sleep of `BACKOFF_FACTOR * 2 ^ 0 = 1` second.  On a listing whose
first request is answered 429 and whose second succeeds, the code
actually sleeps 2 seconds (`retries` is incremented to 1 before the
sleep), so the recorded sleep list is `[2]`, not `[1]`.
-/
theorem c7_backoff_counterexample :
    KaggleList.get_all_dataset_files "u" "k"
        (KaggleList.mkServer [⟨1, ["f"], none⟩] (fun _ => KaggleList.Resp.connError)) 1
      = some ⟨some ["f"], 2, [2]⟩
    ∧ [2] ≠ [KaggleList.BACKOFF_FACTOR * 2 ^ 0] := by
  constructor
  · rw [KaggleList.get_all_dataset_files, if_neg (by decide)]
    rw [KaggleList.pagerLoop_good (fun _ => KaggleList.Resp.connError)
      [⟨1, ["f"], none⟩] _ 1 0 [] [] (fun m => by simp) (by decide) (by decide)
      (fun p hp => by
        cases Option.some.inj hp
        rfl)
      (by simp) (le_refl _)]
    rfl
  · decide

/--
C7 amended: upon the i-th consecutive 429 response for a page (i counted
from 0, counter reset at each new page — the pagination loop enters the
retry loop with `retries = 0`), the pager increments the retry counter
first and then sleeps `backoffFactor * 2 ^ (i + 1)` seconds, so the
per-page sleep sequence is `backoffFactor * 2, 4, 8, 16`; after the fifth
consecutive 429 it returns without sleeping.
-/
theorem c7_backoff_amended (server : Nat → KaggleList.Resp) (fs : List String)
    (t : Option String) (k reqIdx : Nat) (hk : k < KaggleList.MAX_RETRIES)
    (h429 : ∀ i, i < k → server (reqIdx + i) = KaggleList.Resp.httpError 429)
    (hsucc : server (reqIdx + k) = KaggleList.Resp.success fs t)
    (stallServer : Nat → KaggleList.Resp) (j : Nat)
    (hstall : ∀ i, i < KaggleList.MAX_RETRIES →
      stallServer (j + i) = KaggleList.Resp.httpError 429) :
    KaggleList.fetchPage server reqIdx 0
      = KaggleList.PageStep.got fs t (k + 1)
          ((List.range k).map (fun i => KaggleList.BACKOFF_FACTOR * 2 ^ (i + 1)))
    ∧ KaggleList.fetchPage stallServer j 0
      = KaggleList.PageStep.partialReturn KaggleList.MAX_RETRIES
          ((List.range (KaggleList.MAX_RETRIES - 1)).map
            (fun i => KaggleList.BACKOFF_FACTOR * 2 ^ (i + 1))) := by
  have hmap : ∀ n, (List.range' 1 n).map (fun r => KaggleList.BACKOFF_FACTOR * 2 ^ r)
      = (List.range n).map (fun i => KaggleList.BACKOFF_FACTOR * 2 ^ (i + 1)) := by
    intro n
    induction n with
    | zero => rfl
    | succ n ih =>
      rw [List.range'_1_concat, List.range_succ]
      simp only [List.map_append, ih]
      simp [Nat.add_comm]
  constructor
  · rw [KaggleList.fetchPage_success server fs t k reqIdx 0 (by omega) h429 hsucc]
    rw [Nat.zero_add, hmap]
  · rw [KaggleList.fetchPage_stall stallServer KaggleList.MAX_RETRIES j 0 (by omega)
      (by decide) hstall]
    rw [Nat.zero_add, hmap]

/-- Witness for the amended C7: two 429s then success give sleeps
`[2, 4]`; five straight 429s give a partial return after sleeps
`[2, 4, 8, 16]`. -/
theorem c7_backoff_amended_witness :
    KaggleList.fetchPage
        (KaggleList.mkServer [⟨2, ["f"], some "t"⟩] (fun _ => KaggleList.Resp.connError)) 0 0
      = KaggleList.PageStep.got ["f"] (some "t") 3 [2, 4]
    ∧ KaggleList.fetchPage (fun _ => KaggleList.Resp.httpError 429) 0 0
      = KaggleList.PageStep.partialReturn 5 [2, 4, 8, 16] := by
  obtain ⟨h1, h2⟩ := c7_backoff_amended
    (KaggleList.mkServer [⟨2, ["f"], some "t"⟩] (fun _ => KaggleList.Resp.connError))
    ["f"] (some "t") 2 0 (by decide) (by decide) (by decide)
    (fun _ => KaggleList.Resp.httpError 429) 0 (by decide)
  exact ⟨h1.trans (by rfl), h2.trans (by rfl)⟩

/--
C6 counterexample: the claim says timeouts and network errors on listing
are retried with exponential backoff up to a fixed attempt ceiling before
being surfaced.  In `get_all_dataset_files` a timeout is caught by the
`requests.exceptions.Timeout` branch, which returns `None` at once: the
run below makes exactly one request and performs no backoff sleep.
-/
theorem c6_transient_counterexample :
    KaggleList.get_all_dataset_files "u" "k" (fun _ => KaggleList.Resp.timeout) 1
      = some ⟨none, 1, []⟩ := by
  rw [KaggleList.get_all_dataset_files, if_neg (by decide)]
  simp only [KaggleList.pagerLoop,
    KaggleList.fetchPage_hardFail (fun _ => KaggleList.Resp.timeout) 0 0
      (Or.inr (Or.inr (Or.inl rfl)))]
  simp

/--
C6 amended: rate-limit (429) responses are the retried class — the
listing retries them with exponential backoff up to its 5-attempt-per-page
ceiling and then surfaces the partial result, and the per-file download
retries them up to its 3-attempt ceiling and then surfaces a failure
Status.  Listing timeouts, connection errors and non-429 HTTP errors
(404, 401, …) all fail fast with a single request and no sleep; a
per-file download error other than 429 fails fast with a single attempt;
and the uploader retries every failure with exponential backoff up to its
ceiling, drawing no distinction between transient and permanent errors.
-/
theorem c6_error_classes
    (server : Nat → KaggleList.Resp) (reqIdx : Nat)
    (hstall : ∀ i, i < KaggleList.MAX_RETRIES →
      server (reqIdx + i) = KaggleList.Resp.httpError 429)
    (server2 : Nat → KaggleList.Resp) (j retries : Nat)
    (hclass : (∃ code, code ≠ 429 ∧ server2 j = KaggleList.Resp.httpError code)
      ∨ server2 j = KaggleList.Resp.connError
      ∨ server2 j = KaggleList.Resp.timeout
      ∨ server2 j = KaggleList.Resp.reqError
      ∨ server2 j = KaggleList.Resp.jsonError)
    (dl : Nat → KaggleDl.DlOutcome) (hdl : dl 0 = KaggleDl.DlOutcome.errOther)
    (maxRetries : Nat) (hmr : 1 ≤ maxRetries) :
    KaggleList.fetchPage server reqIdx 0
      = KaggleList.PageStep.partialReturn KaggleList.MAX_RETRIES KaggleList.stallSleeps
    ∧ KaggleList.fetchPage server2 j retries = KaggleList.PageStep.hardFail 1 []
    ∧ KaggleDl.download_file_worker (fun _ => KaggleDl.DlOutcome.err429)
      = (false, KaggleDl.MAX_RETRIES, [2, 4])
    ∧ KaggleDl.download_file_worker dl = (false, 1, [])
    ∧ GcsUploader.upload_one (fun i => decide (maxRetries ≤ i)) maxRetries
      = (true, maxRetries, (List.range (maxRetries - 1)).map (fun a => 2 ^ a)) := by
  refine ⟨?_, ?_, ?_, ?_, ?_⟩
  · rw [KaggleList.fetchPage_stall server KaggleList.MAX_RETRIES reqIdx 0 (by omega)
      (by decide) hstall]
    rfl
  · exact KaggleList.fetchPage_hardFail server2 j retries hclass
  · simp [KaggleDl.download_file_worker, KaggleDl.workerGo, KaggleDl.MAX_RETRIES,
      KaggleDl.BASE_BACKOFF_SECONDS]
  · rw [KaggleDl.download_file_worker, KaggleDl.workerGo, hdl]
  · rw [GcsUploader.upload_one,
      GcsUploader.uploadGo_exhausts (fun i => decide (maxRetries ≤ i)) maxRetries hmr
        (fun a ha => by simp; omega) (maxRetries - 1 - 0) 0 rfl (by omega)]
    rw [List.range_eq_range']
    simp

/-- Witness for the amended C6: endless 429s on a page, a timeout on a
request, a per-file download that is endlessly rate limited, a per-file
download failing with an unrelated error, and an upload failing all three
attempts. -/
theorem c6_error_classes_witness :
    KaggleList.fetchPage (fun _ => KaggleList.Resp.httpError 429) 0 0
      = KaggleList.PageStep.partialReturn 5 [2, 4, 8, 16]
    ∧ KaggleList.fetchPage (fun _ => KaggleList.Resp.timeout) 7 2
      = KaggleList.PageStep.hardFail 1 []
    ∧ KaggleDl.download_file_worker (fun _ => KaggleDl.DlOutcome.err429)
      = (false, 3, [2, 4])
    ∧ KaggleDl.download_file_worker (fun _ => KaggleDl.DlOutcome.errOther)
      = (false, 1, [])
    ∧ GcsUploader.upload_one (fun i => decide (3 ≤ i)) 3 = (true, 3, [1, 2]) := by
  obtain ⟨h1, h2, h3, h4, h5⟩ := c6_error_classes
    (fun _ => KaggleList.Resp.httpError 429) 0 (by decide)
    (fun _ => KaggleList.Resp.timeout) 7 2 (Or.inr (Or.inr (Or.inl rfl)))
    (fun _ => KaggleDl.DlOutcome.errOther) rfl 3 (by decide)
  exact ⟨h1.trans (by rfl), h2, h3.trans (by rfl), h4, h5.trans (by rfl)⟩

/--
C5 counterexample: the claim says a failure of the file-listing step is
surfaced to the caller.  When `get_all_dataset_files` fails it returns
`None` (it does not raise), so `download_kaggle_dataset_concurrently`
takes the `if not all_files:` branch: it logs a warning and returns
normally — no download and no upload is attempted, but no failure reaches
the caller (`raised = none`).
-/
theorem c5_listing_failure_swallowed :
    KaggleOrch.download_kaggle_dataset_concurrently true "owner/ds" none
        (fun _ _ => KaggleDl.DlOutcome.ok) false
      = ⟨none, [], [], false⟩ := by
  decide

/--
C5 amended: a failure of the file-listing step halts the whole operation
before any download or upload is attempted, but it is only logged: the
call returns normally rather than surfacing the failure (the listing
returns `None`, which the orchestrator treats like an empty listing).  A
failure of an individual per-file download is tolerated: every listed
file is still attempted, the failing file merely reports a failure
`Status`, the others report success, and the upload phase still runs.
-/
theorem c5_failure_propagation
    (repo_id : String) (h2 : (PathModel.splitSlash repo_id).length = 2)
    (dl : Nat → Nat → KaggleDl.DlOutcome)
    (files : List String) (hne : files ≠ [])
    (i : Nat) (hi : i < files.length)
    (hfail : ∀ a, dl i a = KaggleDl.DlOutcome.errOther)
    (hok : ∀ j, j ≠ i → dl j 0 = KaggleDl.DlOutcome.ok) :
    KaggleOrch.download_kaggle_dataset_concurrently true repo_id none dl false
      = ⟨none, [], [], false⟩
    ∧ KaggleOrch.download_kaggle_dataset_concurrently true repo_id (some files) dl false
      = ⟨none, files,
          (List.range files.length).map
            (fun j => (KaggleDl.download_file_worker (dl j)).1), true⟩
    ∧ (KaggleDl.download_file_worker (dl i)).1 = false
    ∧ ∀ j, j ≠ i → (KaggleDl.download_file_worker (dl j)).1 = true := by
  refine ⟨?_, ?_, ?_, ?_⟩
  · simp [KaggleOrch.download_kaggle_dataset_concurrently, h2]
  · cases files with
    | nil => exact absurd rfl hne
    | cons f fs => simp [KaggleOrch.download_kaggle_dataset_concurrently, h2]
  · rw [KaggleDl.download_file_worker, KaggleDl.workerGo, hfail 0]
  · intro j hj
    rw [KaggleDl.download_file_worker, KaggleDl.workerGo, hok j hj]

/-- Witness for the amended C5: three files with the middle download
failing permanently: all three are attempted, the batch reports
`[true, false, true]`, and the upload phase runs; a `None` listing ends
the run with nothing attempted and nothing raised. -/
theorem c5_failure_propagation_witness :
    KaggleOrch.download_kaggle_dataset_concurrently true "owner/ds" none
        (fun j _ => if j = 1 then KaggleDl.DlOutcome.errOther else KaggleDl.DlOutcome.ok)
        false
      = ⟨none, [], [], false⟩
    ∧ KaggleOrch.download_kaggle_dataset_concurrently true "owner/ds"
        (some ["a", "b", "c"])
        (fun j _ => if j = 1 then KaggleDl.DlOutcome.errOther else KaggleDl.DlOutcome.ok)
        false
      = ⟨none, ["a", "b", "c"], [true, false, true], true⟩ := by
  obtain ⟨h1, h2, h3, h4⟩ := c5_failure_propagation "owner/ds" (by decide)
    (fun j _ => if j = 1 then KaggleDl.DlOutcome.errOther else KaggleDl.DlOutcome.ok)
    ["a", "b", "c"] (by simp) 1 (by decide)
    (fun a => rfl) (fun j hj => by simp [hj])
  refine ⟨h1, h2.trans ?_⟩
  simp [List.range_succ, KaggleDl.download_file_worker, KaggleDl.workerGo,
    KaggleDl.MAX_RETRIES]

/--
C4 counterexample: in a HuggingFace-style run whose fetch succeeds and
whose uploads all succeed, the claim says the completion notifier fires
exactly once with `(dataset, gs://<bucket>/huggingface/org/name)`.
`download_dataset` in `src/worker/hf_downloader.py` contains no publish
call at all, so the run below fires zero notifications, not one.
-/
theorem c4_notification_counterexample :
    (HfOrch.download_dataset "/mnt/filestore" "huggingface" "org/name" "" false true
        (PathModel.FsDir.mk [] ["a.txt"])).publishes = []
    ∧ ¬ (HfOrch.download_dataset "/mnt/filestore" "huggingface" "org/name" "" false true
        (PathModel.FsDir.mk [] ["a.txt"])).publishes.length = 1 := by
  constructor
  · rfl
  · decide

/--
C4 amended: in every HuggingFace-style run whose fetch succeeds, the
staged tree is uploaded under keys
`GCS_PREFIX/repo_id/relative_path` (lstripped of leading slashes) and the
run completes without raising, but the completion notifier is never
invoked: `download_dataset` fires zero notifications.
-/
theorem c4_hf_no_notifier (mount gcs_pfx repo_id dest_suffix : String)
    (po : Bool) (staged : PathModel.FsDir) :
    (HfOrch.download_dataset mount gcs_pfx repo_id dest_suffix po true staged).raised
      = none
    ∧ (HfOrch.download_dataset mount gcs_pfx repo_id dest_suffix po true staged).publishes
      = []
    ∧ (HfOrch.download_dataset mount gcs_pfx repo_id dest_suffix po true staged).uploads
      = (PathModel.walkDir po "" staged).map (fun rel =>
          (PathModel.pjoin
            (if dest_suffix ≠ "" then PathModel.pjoin mount dest_suffix else mount) rel,
           PathModel.lstripSlash
             (PathModel.pjoin (PathModel.pjoin gcs_pfx repo_id) rel))) := by
  exact ⟨rfl, rfl, rfl⟩

/--
C3: `upload_files` ends without a `return` statement, so it returns
`None`; yet `download_kaggle_dataset_with_cli` binds this value
(`gcs_dest = upload_files(...)`) and publishes it as the completion
destination.  The completion notification therefore carries
`destination = None` instead of the `gs://bucket/destPrefix/repoId`
location the specification promises (with the default configuration,
`gs://3p-datasets-bucket/kaggle/owner/ds`).
-/
theorem c3_destination_uri_lost :
    (KaggleOrch.download_kaggle_dataset_with_cli "owner/ds" true false).publishArgs
      = some ("owner/ds", none)
    ∧ (some (("owner/ds", none) : String × Option String)
        ≠ some ("owner/ds", some "gs://3p-datasets-bucket/kaggle/owner/ds"))
    ∧ (GcsUploader.upload_files (fun _ _ => true) false "/mnt/filestore/owner/ds"
        "kaggle" "owner/ds" (PathModel.FsDir.mk [] ["a.txt"])).map Prod.snd
      = Except.ok none := by
  refine ⟨rfl, ?_, rfl⟩
  decide

/--
C10: for every `POST /enqueue` request that passes validation and carries
no `dest_suffix` (absent or empty), the handler calls
`trigger_download_job` with `dest_suffix` set to the dataset id
`owner/name`, so the worker-side staging destination defaults to
`<mount>/owner/name` rather than the mount root.
-/
theorem c10_default_dest_suffix (dataset source : String)
    (hv : Frontend.is_valid_dataset dataset = true)
    (hnb : PathModel.pyBlank dataset = false)
    (hsrc : source = "kaggle" ∨ source = "huggingface")
    (body_ds : Option String) (hbody : body_ds = none ∨ body_ds = some "")
    (mount : String) (hm : mount ≠ "")
    (hmslash : PathModel.endsWithSlash mount = false)
    (hdslash : PathModel.headIsSlash dataset = false) :
    Frontend.enqueue ⟨some dataset, some source, body_ds⟩
      = Frontend.EnqueueResult.triggered dataset source dataset
    ∧ Frontend.destPath mount dataset = mount ++ "/" ++ dataset := by
  have hds : dataset ≠ "" := by
    intro h
    subst h
    exact absurd hnb (by decide)
  constructor
  · rcases hbody with h | h <;> subst h <;>
      rcases hsrc with h | h <;> subst h <;>
      simp [Frontend.enqueue, hv, hnb, show "".isEmpty = true from rfl]
  · rw [Frontend.destPath, if_pos hds, PathModel.pjoin,
      if_neg (by simp [hdslash]), if_neg hm, if_neg (by simp [hmslash])]

/-- Witness for C10: dataset `owner/name` with source `kaggle` and no
suffix is triggered with `dest_suffix = "owner/name"`, staging at
`/mnt/filestore/owner/name`. -/
theorem c10_default_dest_suffix_witness :
    Frontend.enqueue ⟨some "owner/name", some "kaggle", none⟩
      = Frontend.EnqueueResult.triggered "owner/name" "kaggle" "owner/name"
    ∧ Frontend.destPath "/mnt/filestore" "owner/name"
      = "/mnt/filestore" ++ "/" ++ "owner/name" := by
  exact c10_default_dest_suffix "owner/name" "kaggle" (by decide) (by decide)
    (Or.inl rfl) none (Or.inl rfl) "/mnt/filestore" (by decide) (by decide) (by decide)

namespace PathModel

/-- A string equals the empty string exactly when its character list is
empty. -/
lemma eq_empty_iff (s : String) : s = "" ↔ s.data = [] := by
  rw [String.ext_iff]

/-- Dropping every leading slash leaves nothing beginning with a slash. -/
lemma headIsSlash_mk_dropWhile (l : List Char) :
    headIsSlash ⟨l.dropWhile (fun c => c == '/')⟩ = false := by
  induction l with
  | nil => rfl
  | cons c cs ih =>
    rw [List.dropWhile_cons]
    by_cases h : (c == '/') = true
    · simp only [h, if_true]
      exact ih
    · simp only [h, if_false]
      simpa [headIsSlash] using h

/-- The lstripped remote key never begins with a slash. -/
lemma headIsSlash_lstripSlash (s : String) :
    headIsSlash (lstripSlash s) = false :=
  headIsSlash_mk_dropWhile s.data

/-- Stripping leading slashes from a string that has none is the
identity. -/
lemma lstripSlash_of_no_slash (s : String) (h : headIsSlash s = false) :
    lstripSlash s = s := by
  rw [String.ext_iff]
  show s.data.dropWhile (fun c => c == '/') = s.data
  cases hd : s.data with
  | nil => rfl
  | cons c cs =>
    rw [List.dropWhile_cons]
    have hc : (c == '/') = false := by
      rw [headIsSlash, hd] at h
      exact h
    simp [hc]

/-- Appending to a non-empty string keeps its first character. -/
lemma headIsSlash_append (a b : String) (ha : a.data ≠ []) :
    headIsSlash (a ++ b) = headIsSlash a := by
  rw [headIsSlash, headIsSlash, String.data_append]
  cases hd : a.data with
  | nil => exact absurd hd ha
  | cons c cs => rfl

/-- Joining two components that do not begin with a slash yields a path
that does not begin with a slash. -/
lemma headIsSlash_pjoin (a b : String) (ha : headIsSlash a = false)
    (hb : headIsSlash b = false) : headIsSlash (pjoin a b) = false := by
  rw [pjoin]
  simp only [hb, Bool.false_eq_true, if_false]
  by_cases hae : a = ""
  · simp [hae, hb]
  · have hadata : a.data ≠ [] := by
      intro h
      exact hae ((eq_empty_iff a).mpr h)
    simp only [hae, if_false]
    by_cases hes : endsWithSlash a = true
    · simp only [hes, if_true]
      rw [headIsSlash_append a b hadata]
      exact ha
    · simp only [hes, Bool.false_eq_true, if_false]
      have h1 : (a ++ "/").data ≠ [] := by
        rw [String.data_append]
        simp [hadata]
      rw [headIsSlash_append (a ++ "/") b h1, headIsSlash_append a "/" hadata]
      exact ha

mutual

/-- No relative path produced by walking well-formed subdirectories from
a prefix without a leading slash begins with a slash. -/
lemma walkDirs_no_slash (po : Bool) (pre : String)
    (hpre : headIsSlash pre = false) (l : List (String × FsDir))
    (hwf : namesOkDirs l = true) :
    ∀ rel ∈ walkDirs po pre l, headIsSlash rel = false := by
  match l with
  | [] =>
    intro rel hrel
    rw [walkDirs] at hrel
    simp at hrel
  | (d, c) :: ts =>
    intro rel hrel
    rw [walkDirs] at hrel
    rw [namesOkDirs] at hwf
    have hd : headIsSlash d = false := by
      rcases Bool.and_eq_true_iff.mp hwf with ⟨h1, _⟩
      rcases Bool.and_eq_true_iff.mp h1 with ⟨h2, _⟩
      simpa using h2
    have hc : namesOk c = true := by
      rcases Bool.and_eq_true_iff.mp hwf with ⟨h1, _⟩
      rcases Bool.and_eq_true_iff.mp h1 with ⟨_, h3⟩
      exact h3
    have hts : namesOkDirs ts = true := (Bool.and_eq_true_iff.mp hwf).2
    rcases List.mem_append.mp hrel with h1 | h2
    · by_cases hp : pruneDir d = true
      · simp [hp] at h1
      · rw [if_neg hp] at h1
        exact walkDir_no_slash po (pjoin pre d)
          (headIsSlash_pjoin pre d hpre hd) c hc rel h1
    · exact walkDirs_no_slash po pre hpre ts hts rel h2

/-- No relative path produced by walking a well-formed tree from a prefix
without a leading slash begins with a slash. -/
lemma walkDir_no_slash (po : Bool) (pre : String)
    (hpre : headIsSlash pre = false) (t : FsDir)
    (hwf : namesOk t = true) :
    ∀ rel ∈ walkDir po pre t, headIsSlash rel = false := by
  match t with
  | .mk dirs files =>
    intro rel hrel
    rw [walkDir] at hrel
    rw [namesOk] at hwf
    have hfiles : ∀ f ∈ files, headIsSlash f = false := by
      intro f hf
      have := (Bool.and_eq_true_iff.mp hwf).1
      rw [List.all_eq_true] at this
      simpa using this f hf
    have hdirs : namesOkDirs dirs = true := (Bool.and_eq_true_iff.mp hwf).2
    rcases List.mem_append.mp hrel with h1 | h2
    · rcases List.mem_filterMap.mp h1 with ⟨f, hf, hval⟩
      by_cases hpq : (po && !(strEndsWith f ".parquet")) = true
      · rw [if_pos hpq] at hval
        exact absurd hval (by simp)
      · rw [if_neg hpq] at hval
        cases hval
        exact headIsSlash_pjoin pre f hpre (hfiles f hf)
    · exact walkDirs_no_slash po pre hpre dirs hdirs rel h2

end

end PathModel

/--
C8 counterexample: the claim says every `remoteKey` both never begins
with `/` and always equals `join(destPrefix, repoId, relativePath)`.
With `destPrefix = "/pfx"` the join is `/pfx/o/d/a.txt`, but the code
lstrips leading slashes, producing `pfx/o/d/a.txt`: the equality half of
the claim fails.
-/
theorem c8_remote_key_counterexample :
    GcsUploader.to_upload false "src" "/pfx" "o/d" (PathModel.FsDir.mk [] ["a.txt"])
      = [("src/a.txt", "pfx/o/d/a.txt")]
    ∧ PathModel.pjoin (PathModel.pjoin "/pfx" "o/d") "a.txt" = "/pfx/o/d/a.txt"
    ∧ ("pfx/o/d/a.txt" : String) ≠ "/pfx/o/d/a.txt" := by
  refine ⟨rfl, rfl, ?_⟩
  decide

/--
C8 amended: every `remoteKey` produced by the walk equals
`join(destPrefix, repoId, relativePath)` with leading `/` characters
stripped, and never begins with `/`; when `destPrefix` and `repoId` do
not begin with `/` (and the entry names of the tree do not begin with `/`, as
is true of every real directory entry) the stripping is the identity and
`remoteKey` equals the join itself.
-/
theorem c8_remote_keys (po : Bool) (source dest_pfx repo_id : String)
    (root : PathModel.FsDir)
    (h1 : PathModel.namesOk root = true)
    (h2 : PathModel.headIsSlash dest_pfx = false)
    (h3 : PathModel.headIsSlash repo_id = false) :
    GcsUploader.to_upload po source dest_pfx repo_id root
      = (PathModel.walkDir po "" root).map (fun rel =>
          (PathModel.pjoin source rel,
            PathModel.lstripSlash
              (PathModel.pjoin (PathModel.pjoin dest_pfx repo_id) rel)))
    ∧ (∀ e ∈ GcsUploader.to_upload po source dest_pfx repo_id root,
        PathModel.headIsSlash e.2 = false)
    ∧ GcsUploader.to_upload po source dest_pfx repo_id root
      = (PathModel.walkDir po "" root).map (fun rel =>
          (PathModel.pjoin source rel,
            PathModel.pjoin (PathModel.pjoin dest_pfx repo_id) rel)) := by
  refine ⟨rfl, ?_, ?_⟩
  · intro e he
    rw [GcsUploader.to_upload] at he
    rcases List.mem_map.mp he with ⟨rel, hrel, hval⟩
    cases hval
    exact PathModel.headIsSlash_lstripSlash _
  · rw [GcsUploader.to_upload]
    apply List.map_congr_left
    intro rel hrel
    have hr : PathModel.headIsSlash rel = false :=
      PathModel.walkDir_no_slash po "" rfl root h1 rel hrel
    have hkey : PathModel.headIsSlash
        (PathModel.pjoin (PathModel.pjoin dest_pfx repo_id) rel) = false :=
      PathModel.headIsSlash_pjoin _ _ (PathModel.headIsSlash_pjoin _ _ h2 h3) hr
    rw [PathModel.lstripSlash_of_no_slash _ hkey]

/-- Witness for the amended C8: a tree with a top-level file and one
subdirectory file; the produced remote keys are exactly the joins
`kaggle/o/d/<relativePath>` with no leading slash. -/
theorem c8_remote_keys_witness :
    GcsUploader.to_upload false "s" "kaggle" "o/d"
        (PathModel.FsDir.mk [("sub", PathModel.FsDir.mk [] ["b.parquet"])] ["a.txt"])
      = [("s/a.txt", "kaggle/o/d/a.txt"),
         ("s/sub/b.parquet", "kaggle/o/d/sub/b.parquet")]
    ∧ ∀ e ∈ GcsUploader.to_upload false "s" "kaggle" "o/d"
        (PathModel.FsDir.mk [("sub", PathModel.FsDir.mk [] ["b.parquet"])] ["a.txt"]),
        PathModel.headIsSlash e.2 = false := by
  obtain ⟨u1, u2, u3⟩ := c8_remote_keys false "s" "kaggle" "o/d"
    (PathModel.FsDir.mk [("sub", PathModel.FsDir.mk [] ["b.parquet"])] ["a.txt"])
    (by decide) (by decide) (by decide)
  exact ⟨u3.trans (by rfl), u2⟩

/--
C9: in every batch whose entry number `i` fails all of its upload
attempts while every other entry succeeds at its first attempt, the
engine still attempts all entries — one outcome per submitted pair, the
others reporting success — and the engine call itself returns normally
(`Except.ok`) rather than raising for the isolated failure.
-/
theorem c9_batch_partial_failure
    (ok : Nat → Nat → Bool) (po : Bool) (source dest_pfx repo_id : String)
    (root : PathModel.FsDir) (i : Nat)
    (hi : i < (GcsUploader.to_upload po source dest_pfx repo_id root).length)
    (hfail : ∀ a, a < 3 → ok i a = false)
    (hok : ∀ j, j ≠ i → ok j 0 = true) :
    ∃ results : List Bool,
      GcsUploader.upload_files ok po source dest_pfx repo_id root
        = Except.ok (results, none)
      ∧ results.length
        = (GcsUploader.to_upload po source dest_pfx repo_id root).length
      ∧ results[i]? = some false
      ∧ ∀ j, j < results.length → j ≠ i → results[j]? = some true := by
  refine ⟨(List.range (GcsUploader.to_upload po source dest_pfx repo_id root).length).map
    (fun j => !(GcsUploader.upload_one (ok j)).1), rfl, by simp, ?_, ?_⟩
  · rw [List.getElem?_map, List.getElem?_range hi]
    simp only [Option.map_some']
    rw [GcsUploader.upload_one,
      GcsUploader.uploadGo_exhausts (ok i) 3 (by omega) hfail (3 - 1 - 0) 0 rfl
        (by omega)]
    rfl
  · intro j hj hne
    rw [List.length_map, List.length_range] at hj
    rw [List.getElem?_map, List.getElem?_range hj]
    simp only [Option.map_some']
    rw [GcsUploader.upload_one_first_ok (ok j) 3 (by omega) (hok j hne)]
    rfl

/-- Witness for C9: three files where only the uploads of the second entry
fail: the batch yields `[true, false, true]` and the engine returns
normally. -/
theorem c9_batch_partial_failure_witness :
    ∃ results : List Bool,
      GcsUploader.upload_files (fun j _ => decide (j ≠ 1)) false "s" "kaggle" "o/d"
          (PathModel.FsDir.mk [] ["a", "b", "c"])
        = Except.ok (results, none)
      ∧ results.length
        = (GcsUploader.to_upload false "s" "kaggle" "o/d"
            (PathModel.FsDir.mk [] ["a", "b", "c"])).length
      ∧ results[1]? = some false
      ∧ ∀ j, j < results.length → j ≠ 1 → results[j]? = some true :=
  c9_batch_partial_failure (fun j _ => decide (j ≠ 1)) false "s" "kaggle" "o/d"
    (PathModel.FsDir.mk [] ["a", "b", "c"]) 1 (by decide)
    (fun a _ => rfl) (fun j hj => by simp [hj])
